import Mathlib

/-!
Verification of the device-selection, swap-chain negotiation and frame-loop
synchronization logic of a Vulkan hello-triangle application.  The C++ source
is shallowly embedded: machine integers become Nat with explicit `% 2^32`
where overflow can matter, driver queries become explicit data passed in, and
the Vulkan array-fetch protocol (count pointer + data pointer) is modelled as
a function on lists.
-/

/-! ## Basic Vulkan data types (from the use the source makes of the Vulkan structs) -/

/-- Model of VkExtent2D: a pair of uint32 dimensions. -/
structure VkExtent2D where
  width : Nat
  height : Nat
deriving DecidableEq, Repr

/-- Model of the fields of VkSurfaceCapabilitiesKHR read by the source
(createSwapChain and chooseSwapExtent). -/
structure VkSurfaceCapabilitiesKHR where
  minImageCount : Nat
  maxImageCount : Nat
  currentExtent : VkExtent2D
  minImageExtent : VkExtent2D
  maxImageExtent : VkExtent2D
deriving DecidableEq, Repr

/-- Model of VkSurfaceFormatKHR (format and color-space enumerants as Nat).
The default value (all zero fields) models C++ value-initialization. -/
structure VkSurfaceFormatKHR where
  format : Nat
  colorSpace : Nat
deriving DecidableEq, Repr, Inhabited

/-- The sentinel std::numeric_limits of uint32, compared against
currentExtent.width in chooseSwapExtent. -/
def UINT32_MAX : Nat := 2 ^ 32 - 1

/-! ## Swap-chain image count (createSwapChain, lines 373-375)

The source computes
  uint32_t minImageCount = capabilities.minImageCount + 1;
  if (capabilities.maxImageCount)
      minImageCount = min(minImageCount, capabilities.maxImageCount);
in uint32 arithmetic, so the increment is taken modulo 2^32. -/

/-- The requested swap-chain image count, as computed by createSwapChain. -/
def chooseImageCount (capabilities : VkSurfaceCapabilitiesKHR) : Nat :=
  let count := (capabilities.minImageCount + 1) % 2 ^ 32
  if capabilities.maxImageCount ≠ 0 then min count capabilities.maxImageCount
  else count

/-! ## Swap extent (chooseSwapExtent, lines 488-509) -/

/-- Model of std::clamp on uint32 values: lo if v < lo, hi if hi < v, else v. -/
def stdClamp (v lo hi : Nat) : Nat :=
  if v < lo then lo else if hi < v then hi else v

/-- chooseSwapExtent: return currentExtent verbatim when its width is not the
uint32 sentinel; otherwise clamp the framebuffer pixel size of the window
component-wise into the min/max image extents.  The framebuffer size
(queried from the window in the source) is passed explicitly. -/
def chooseSwapExtent (capabilities : VkSurfaceCapabilitiesKHR)
    (framebufferWidth framebufferHeight : Nat) : VkExtent2D :=
  if capabilities.currentExtent.width ≠ UINT32_MAX then capabilities.currentExtent
  else
    { width := stdClamp framebufferWidth
        capabilities.minImageExtent.width capabilities.maxImageExtent.width,
      height := stdClamp framebufferHeight
        capabilities.minImageExtent.height capabilities.maxImageExtent.height }

/-! ## Sharing mode (createSwapChain, lines 398-417) -/

/-- Model of VkSharingMode. -/
inductive VkSharingMode where
  | exclusive
  | concurrent
deriving DecidableEq, Repr

/-- The sharing-related fields of VkSwapchainCreateInfoKHR set by the source:
imageSharingMode together with the queue-family index array
pQueueFamilyIndices[0 .. queueFamilyIndexCount). -/
structure SharingConfig where
  imageSharingMode : VkSharingMode
  queueFamilyIndexList : List Nat
deriving DecidableEq, Repr

/-- The sharing-mode branch of createSwapChain, as a function of the resolved
graphics and present queue-family indices. -/
def chooseSharingConfig (graphicsFamily presentFamily : Nat) : SharingConfig :=
  if graphicsFamily ≠ presentFamily then
    { imageSharingMode := .concurrent,
      queueFamilyIndexList := [graphicsFamily, presentFamily] }
  else
    { imageSharingMode := .exclusive,
      queueFamilyIndexList := [] }

/-! ## Queue-family resolution (findQueueFamilies, lines 311-342) -/

/-- The fields of one queue-family descriptor the scan inspects: whether the
queueFlags of the family contain VK_QUEUE_GRAPHICS_BIT, and the result of
vkGetPhysicalDeviceSurfaceSupportKHR for this family index against the
target surface. -/
structure QueueFamilyDesc where
  graphicsBit : Bool
  surfaceSupport : Bool
deriving DecidableEq, Repr

/-- The QueueFamilyIndices struct of the source (fields in source order). -/
structure QueueFamilyIndices where
  presentFamily : Option Nat
  graphicsFamily : Option Nat
deriving DecidableEq, Repr

/-- QueueFamilyIndices::isComplete: both indices resolved. -/
def QueueFamilyIndices.isComplete (q : QueueFamilyIndices) : Bool :=
  q.graphicsFamily.isSome && q.presentFamily.isSome

/-- The loop body of findQueueFamilies for one family descriptor at index i:
a family with the graphics bit overwrites the graphics slot and a family with
surface support overwrites the present slot. -/
def updateQueueFamilySlots (qf : QueueFamilyDesc) (i : Nat)
    (acc : QueueFamilyIndices) : QueueFamilyIndices :=
  let acc1 := if qf.graphicsBit then { acc with graphicsFamily := some i } else acc
  if qf.surfaceSupport then { acc1 with presentFamily := some i } else acc1

/-- The scanning loop of findQueueFamilies: before processing each family the
loop breaks if the indices are complete; otherwise the family updates the
slots and the scan moves to the next index. -/
def findQueueFamiliesLoop :
    List QueueFamilyDesc → Nat → QueueFamilyIndices → QueueFamilyIndices
  | [], _, acc => acc
  | qf :: rest, i, acc =>
    if acc.isComplete then acc
    else findQueueFamiliesLoop rest (i + 1) (updateQueueFamilySlots qf i acc)

/-- The same scan without the short-circuit break, used to state that the
eager stop returns exactly the result of scanning the list up to the
stopping point. -/
def scanQueueFamiliesAll :
    List QueueFamilyDesc → Nat → QueueFamilyIndices → QueueFamilyIndices
  | [], _, acc => acc
  | qf :: rest, i, acc => scanQueueFamiliesAll rest (i + 1) (updateQueueFamilySlots qf i acc)

/-! ## Swap-chain support query (querySwapChainSupport, lines 439-462) -/

/-- The driver-side data behind the three surface queries made for one
physical device: capabilities, the supported surface formats, and the
supported present modes (enumerants as Nat; 0 is VK_PRESENT_MODE_IMMEDIATE_KHR,
the value a value-initialized element holds). -/
structure SurfaceQueryData where
  capabilities : VkSurfaceCapabilitiesKHR
  formats : List VkSurfaceFormatKHR
  presentModes : List Nat
deriving DecidableEq, Repr

/-- Model of a Vulkan enumerate call handed a data pointer: the caller buffer
holds `buf`, the count argument passed in is `cap`, and the driver
overwrites the first min(cap, avail.length) entries with the available data,
leaving the rest of the buffer untouched. -/
def vkFetchArray {α : Type} (buf : List α) (cap : Nat) (avail : List α) : List α :=
  avail.take cap ++ buf.drop (min cap avail.length)

/-- The SwapChainSupportDetails struct of the source. -/
structure SwapChainSupportDetails where
  capabilities : VkSurfaceCapabilitiesKHR
  formats : List VkSurfaceFormatKHR
  presentModes : List Nat
deriving DecidableEq, Repr

/-- SwapChainSupportDetails::isAdequate: both lists non-empty. -/
def SwapChainSupportDetails.isAdequate (d : SwapChainSupportDetails) : Bool :=
  !d.formats.isEmpty && !d.presentModes.isEmpty

/-- querySwapChainSupport: the format fetch is sized and fetched with
formatCount; the present-mode vector is resized (value-initialized) with
presentModeCount but the data fetch is passed the formatCount variable, so
only min(formatCount, presentModeCount) genuine entries are written. -/
def querySwapChainSupport (drv : SurfaceQueryData) : SwapChainSupportDetails :=
  let formatCount := drv.formats.length
  let formats :=
    if formatCount ≠ 0 then
      vkFetchArray (List.replicate formatCount default) formatCount drv.formats
    else []
  let presentModeCount := drv.presentModes.length
  let presentModes :=
    if presentModeCount ≠ 0 then
      vkFetchArray (List.replicate presentModeCount 0) formatCount drv.presentModes
    else []
  { capabilities := drv.capabilities, formats := formats, presentModes := presentModes }

/-! ## Physical-device suitability and selection (lines 279-363) -/

/-- One physical device as the selection logic observes it: its ordered
queue-family descriptors, its advertised device-extension names, and the
driver data behind the surface queries for this device. -/
structure PhysicalDevice where
  queueFamilies : List QueueFamilyDesc
  supportedExtensionNames : List String
  surface : SurfaceQueryData
deriving DecidableEq, Repr

/-- The required device extensions (the swap-chain extension). -/
def deviceExtensions : List String := ["VK_KHR_swapchain"]

/-- findQueueFamilies for a device: scan its families from index 0 starting
with both slots unresolved. -/
def findQueueFamilies (dev : PhysicalDevice) : QueueFamilyIndices :=
  findQueueFamiliesLoop dev.queueFamilies 0 ⟨none, none⟩

/-- checkPhysDeviceExtensionSupport: every required extension name occurs
(by string equality) in the advertised extension list of the device. -/
def checkPhysDeviceExtensionSupport (dev : PhysicalDevice) : Bool :=
  deviceExtensions.all fun req =>
    dev.supportedExtensionNames.any fun supported => supported == req

/-- isPhysDeviceSuitable: complete queue-family resolution, extension
support, and adequate swap-chain support. -/
def isPhysDeviceSuitable (dev : PhysicalDevice) : Bool :=
  (findQueueFamilies dev).isComplete
    && checkPhysDeviceExtensionSupport dev
    && (querySwapChainSupport dev.surface).isAdequate

/-- The two failure modes of pickPhysicalDevice. -/
inductive PickError where
  | noGPU
  | noSuitableDevice
deriving DecidableEq, Repr

/-- The selection loop of pickPhysicalDevice: return the first suitable
device, else fail. -/
def pickLoop : List PhysicalDevice → Except PickError PhysicalDevice
  | [] => .error .noSuitableDevice
  | dev :: rest => if isPhysDeviceSuitable dev then .ok dev else pickLoop rest

/-- pickPhysicalDevice: fail with noGPU on an empty enumeration, else run the
first-fit loop. -/
def pickPhysicalDevice (devs : List PhysicalDevice) : Except PickError PhysicalDevice :=
  if devs.isEmpty then .error .noGPU else pickLoop devs

/-- Concrete surface data adequate for presentation (one format, one mode). -/
def surfaceDataOK : SurfaceQueryData :=
  ⟨⟨2, 3, ⟨800, 600⟩, ⟨1, 1⟩, ⟨4096, 4096⟩⟩, [⟨50, 0⟩], [2]⟩

/-- A device whose only queue family lacks the graphics capability. -/
def devNoGraphics : PhysicalDevice :=
  ⟨[⟨false, true⟩], ["VK_KHR_swapchain"], surfaceDataOK⟩

/-- A fully qualifying device. -/
def devQualifiedA : PhysicalDevice :=
  ⟨[⟨true, true⟩], ["VK_KHR_swapchain"], surfaceDataOK⟩

/-- A second fully qualifying device, distinguishable from the first. -/
def devQualifiedB : PhysicalDevice :=
  ⟨[⟨true, true⟩], ["VK_KHR_swapchain", "VK_KHR_maintenance1"], surfaceDataOK⟩

/-! ## Frame-loop error handling (drawFrame, lines 142-197)

In the source, drawFrame stores and checks only the result of vkQueueSubmit
(throwing a runtime error carrying the status string when it is not
VK_SUCCESS); the results of vkAcquireNextImageKHR and vkQueuePresentKHR are
discarded.  VkResult values are modelled as Int (VK_SUCCESS = 0, error codes
negative). -/

/-- VK_SUCCESS. -/
def VK_SUCCESS : Int := 0

/-- VK_ERROR_DEVICE_LOST, one concrete non-success VkResult. -/
def VK_ERROR_DEVICE_LOST : Int := -4

/-- The error drawFrame can raise, carrying the originating driver status
(the source throws a runtime error embedding string_VkResult(res) of the
failed vkQueueSubmit). -/
inductive FrameError where
  | submitFailed (res : Int)
deriving DecidableEq, Repr

/-- The control flow of one drawFrame call as a function of the driver
statuses returned by the acquire, submit and present calls: wait and fence
reset happen first (results unchecked), the acquire result is discarded, the
command buffer is reset and re-recorded, the submit result is checked, and
the present result is discarded. -/
def drawFrameResult (acquireRes submitRes presentRes : Int) :
    Except FrameError Unit :=
  if submitRes ≠ VK_SUCCESS then .error (.submitFailed submitRes)
  else .ok ()

/-! ## Frame synchronization (createSyncPrimitives lines 1015-1028,
drawFrame lines 142-197, mainLoop lines 131-140)

The host thread and the GPU are modelled as a labelled transition system:
host steps follow the statement order of drawFrame (wait on the in-flight
fence and reset it, acquire, reset/record the command buffer, submit —
which registers a pending GPU completion that will signal the fence —
and present, after which the next iteration begins); the GPU step signals
the fence of the pending submission at an arbitrary later point.  The host
wait step is enabled only when the fence is signaled, which models
vkWaitForFences blocking. -/

/-- VK_FENCE_CREATE_SIGNALED_BIT. -/
def VK_FENCE_CREATE_SIGNALED_BIT : Nat := 1

/-- The flags the source puts in its VkFenceCreateInfo. -/
def fenceInfoFlags : Nat := VK_FENCE_CREATE_SIGNALED_BIT

/-- Vulkan semantics of vkCreateSemaphore: a new semaphore is unsignaled. -/
def vkCreateSemaphoreState : Bool := false

/-- Vulkan semantics of vkCreateFence: the new fence is signaled exactly when
the create-info flags contain VK_FENCE_CREATE_SIGNALED_BIT. -/
def vkCreateFenceState (flags : Nat) : Bool :=
  (flags &&& VK_FENCE_CREATE_SIGNALED_BIT) != 0

/-- The three sync primitives of the source, by signaled state. -/
structure FrameSyncSet where
  imageAvailableSemaphore : Bool
  renderFinishedSemaphore : Bool
  inFlightFence : Bool
deriving DecidableEq, Repr

/-- createSyncPrimitives: two semaphores with default create-info and one
fence created with the signaled bit. -/
def createSyncPrimitives : FrameSyncSet :=
  { imageAvailableSemaphore := vkCreateSemaphoreState,
    renderFinishedSemaphore := vkCreateSemaphoreState,
    inFlightFence := vkCreateFenceState fenceInfoFlags }

/-- The position of the host inside one drawFrame iteration: the next
statement it will execute. -/
inductive FramePhase where
  | waiting
  | acquiring
  | recording
  | submitting
  | presenting
deriving DecidableEq, Repr

/-- The frame-loop state: the iteration counter, the host position, the
in-flight fence, and the frame of an outstanding GPU submission that will
signal the fence (none when no submission is outstanding). -/
structure FrameLoopState where
  frame : Nat
  phase : FramePhase
  fence : Bool
  pending : Option Nat
deriving DecidableEq, Repr

/-- Observable events of the frame loop.  fenceObserved n is the host
vkWaitForFences for iteration n returning (the fence was observed signaled);
gpuSignal m is the GPU finishing the work submitted for frame m and signaling
the fence. -/
inductive FrameEv where
  | fenceObserved (n : Nat)
  | acquire (n : Nat)
  | record (n : Nat)
  | submit (n : Nat)
  | present (n : Nat)
  | gpuSignal (n : Nat)
deriving DecidableEq, Repr

/-- One step of the frame-loop transition system. -/
inductive FrameStep : FrameLoopState → FrameEv → FrameLoopState → Prop where
  | waitFence (n : Nat) (p : Option Nat) :
      FrameStep ⟨n, .waiting, true, p⟩ (.fenceObserved n) ⟨n, .acquiring, false, p⟩
  | acquire (n : Nat) (b : Bool) (p : Option Nat) :
      FrameStep ⟨n, .acquiring, b, p⟩ (.acquire n) ⟨n, .recording, b, p⟩
  | record (n : Nat) (b : Bool) (p : Option Nat) :
      FrameStep ⟨n, .recording, b, p⟩ (.record n) ⟨n, .submitting, b, p⟩
  | submit (n : Nat) (b : Bool) (p : Option Nat) :
      FrameStep ⟨n, .submitting, b, p⟩ (.submit n) ⟨n, .presenting, b, some n⟩
  | present (n : Nat) (b : Bool) (p : Option Nat) :
      FrameStep ⟨n, .presenting, b, p⟩ (.present n) ⟨n + 1, .waiting, b, p⟩
  | gpuFinish (n m : Nat) (ph : FramePhase) (b : Bool) :
      FrameStep ⟨n, ph, b, some m⟩ (.gpuSignal m) ⟨n, ph, true, none⟩

/-- The state at entry to mainLoop: iteration 0, about to wait, the fence as
createSyncPrimitives left it, no outstanding submission. -/
def initFrameState : FrameLoopState :=
  ⟨0, .waiting, createSyncPrimitives.inFlightFence, none⟩

/-- Reachability with the accumulated event trace. -/
inductive FrameReach : List FrameEv → FrameLoopState → Prop where
  | init : FrameReach [] initFrameState
  | step {tr : List FrameEv} {s : FrameLoopState} {e : FrameEv}
      {s2 : FrameLoopState} :
      FrameReach tr s → FrameStep s e s2 → FrameReach (tr ++ [e]) s2

/-- Event a comes before event b in trace tr: every cut of the trace that
already holds b also holds a. -/
def precedes (a b : FrameEv) (tr : List FrameEv) : Prop :=
  ∀ k, b ∈ tr.take k → a ∈ tr.take k

/-- The inductive invariant tying the loop state to the trace. -/
def FrameInv (s : FrameLoopState) (tr : List FrameEv) : Prop :=
  (s.fence = true → s.pending = none)
  ∧ (∀ m, s.pending = some m →
      (s.phase = FramePhase.presenting ∧ s.frame = m)
      ∨ (s.phase = FramePhase.waiting ∧ s.frame = m + 1))
  ∧ (s.phase = FramePhase.presenting →
      s.pending = some s.frame ∨ (s.fence = true ∧ FrameEv.gpuSignal s.frame ∈ tr))
  ∧ (∀ n, s.phase = FramePhase.waiting → s.frame = n + 1 →
      s.pending = some n ∨ (s.fence = true ∧ FrameEv.gpuSignal n ∈ tr))
  ∧ (∀ n, (s.phase = FramePhase.acquiring ∨ s.phase = FramePhase.recording) →
      s.frame = n + 1 →
      FrameEv.gpuSignal n ∈ tr ∧ FrameEv.fenceObserved (n + 1) ∈ tr)
  ∧ ((s.phase = FramePhase.acquiring ∨ s.phase = FramePhase.recording
      ∨ s.phase = FramePhase.submitting) →
      s.pending = none ∧ s.fence = false)

/-! ## Theorems for the pure selection functions -/

/-- Claim C4: the requested swap-chain image count equals
min(minImageCount + 1, maxImageCount) whenever maxImageCount is non-zero, and
equals minImageCount + 1 when maxImageCount is 0 (no clamp).  The hypothesis
is well-formedness of the uint32 increment (no overflow). -/
theorem chooseImageCount_spec (capabilities : VkSurfaceCapabilitiesKHR)
    (hov : capabilities.minImageCount + 1 < 2 ^ 32) :
    (capabilities.maxImageCount ≠ 0 →
      chooseImageCount capabilities =
        min (capabilities.minImageCount + 1) capabilities.maxImageCount)
    ∧ (capabilities.maxImageCount = 0 →
      chooseImageCount capabilities = capabilities.minImageCount + 1) := by
  unfold chooseImageCount
  rw [Nat.mod_eq_of_lt hov]
  constructor
  · intro h
    simp [h]
  · intro h
    simp [h]

/-- Witness for C4: with minImageCount = 2 and maxImageCount = 2 the chosen
count is 2 (the clamp applies even though min+1 = 3). -/
theorem chooseImageCount_spec_witness :
    chooseImageCount ⟨2, 2, ⟨0, 0⟩, ⟨0, 0⟩, ⟨0, 0⟩⟩ = 2 := by
  have h := (chooseImageCount_spec ⟨2, 2, ⟨0, 0⟩, ⟨0, 0⟩, ⟨0, 0⟩⟩ (by decide)).1
    (by decide)
  simpa using h

/-- Claim C5: if the surface reports a defined current extent (width not the
0xFFFFFFFF sentinel) chooseSwapExtent returns it verbatim; otherwise it
returns the framebuffer pixel size clamped component-wise into
[minImageExtent, maxImageExtent]. -/
theorem chooseSwapExtent_spec (capabilities : VkSurfaceCapabilitiesKHR)
    (fbWidth fbHeight : Nat) :
    (capabilities.currentExtent.width ≠ UINT32_MAX →
      chooseSwapExtent capabilities fbWidth fbHeight = capabilities.currentExtent)
    ∧ (capabilities.currentExtent.width = UINT32_MAX →
      chooseSwapExtent capabilities fbWidth fbHeight =
        ⟨stdClamp fbWidth capabilities.minImageExtent.width
            capabilities.maxImageExtent.width,
          stdClamp fbHeight capabilities.minImageExtent.height
            capabilities.maxImageExtent.height⟩) := by
  constructor
  · intro h
    simp [chooseSwapExtent, h]
  · intro h
    simp [chooseSwapExtent, h]

/-- Witness for C5: with currentExtent = (0xFFFFFFFF, 0xFFFFFFFF), framebuffer
(1920, 1080) and min/max extents (1,1)/(1024,1024), the chosen extent is
(1024, 1024). -/
theorem chooseSwapExtent_spec_witness :
    chooseSwapExtent ⟨2, 2, ⟨UINT32_MAX, UINT32_MAX⟩, ⟨1, 1⟩, ⟨1024, 1024⟩⟩
      1920 1080 = ⟨1024, 1024⟩ := by
  have h := (chooseSwapExtent_spec
    ⟨2, 2, ⟨UINT32_MAX, UINT32_MAX⟩, ⟨1, 1⟩, ⟨1024, 1024⟩⟩ 1920 1080).2 rfl
  rw [h]
  decide

/-- Claim C6: distinct graphics/present queue-family indices produce the
concurrent (shareable) configuration with an index list of length 2 listing
exactly those two indices; equal indices produce the exclusive configuration
with zero listed families. -/
theorem chooseSharingConfig_spec (graphicsFamily presentFamily : Nat) :
    (graphicsFamily ≠ presentFamily →
      chooseSharingConfig graphicsFamily presentFamily =
        ⟨.concurrent, [graphicsFamily, presentFamily]⟩
      ∧ (chooseSharingConfig graphicsFamily presentFamily).queueFamilyIndexList.length = 2)
    ∧ (graphicsFamily = presentFamily →
      chooseSharingConfig graphicsFamily presentFamily = ⟨.exclusive, []⟩) := by
  constructor
  · intro h
    constructor <;> simp [chooseSharingConfig, h]
  · intro h
    simp [chooseSharingConfig, h]

/-- Witness for C6: indices 0 and 2 give the concurrent configuration listing
exactly [0, 2]; indices 1 and 1 give the exclusive configuration with an
empty list. -/
theorem chooseSharingConfig_spec_witness :
    chooseSharingConfig 0 2 = ⟨.concurrent, [0, 2]⟩
    ∧ chooseSharingConfig 1 1 = ⟨.exclusive, []⟩ :=
  ⟨((chooseSharingConfig_spec 0 2).1 (by decide)).1,
    (chooseSharingConfig_spec 1 1).2 rfl⟩

/-- Claim C10 (implicit): chooseSwapExtent tests only the width component
against the sentinel: whenever currentExtent.width differs from 0xFFFFFFFF the
current extent is returned verbatim, even when currentExtent.height equals the
sentinel, and the framebuffer-derived clamped path is taken only when the
width equals the sentinel. -/
theorem chooseSwapExtent_width_sentinel_only
    (capabilities : VkSurfaceCapabilitiesKHR) (fbWidth fbHeight : Nat) :
    (capabilities.currentExtent.width ≠ UINT32_MAX →
      chooseSwapExtent capabilities fbWidth fbHeight = capabilities.currentExtent)
    ∧ (capabilities.currentExtent.height = UINT32_MAX →
      capabilities.currentExtent.width ≠ UINT32_MAX →
      chooseSwapExtent capabilities fbWidth fbHeight = capabilities.currentExtent)
    ∧ (chooseSwapExtent capabilities fbWidth fbHeight ≠ capabilities.currentExtent →
      capabilities.currentExtent.width = UINT32_MAX) := by
  refine ⟨?_, ?_, ?_⟩
  · intro h
    simp [chooseSwapExtent, h]
  · intro _ h
    simp [chooseSwapExtent, h]
  · intro h
    by_contra hw
    exact h (by simp [chooseSwapExtent, hw])

/-- Witness for C10: a current extent of (5, 0xFFFFFFFF), whose height equals
the sentinel but whose width does not, is returned verbatim. -/
theorem chooseSwapExtent_width_sentinel_only_witness :
    chooseSwapExtent ⟨2, 2, ⟨5, UINT32_MAX⟩, ⟨1, 1⟩, ⟨1024, 1024⟩⟩ 1920 1080 =
      ⟨5, UINT32_MAX⟩ :=
  (chooseSwapExtent_width_sentinel_only
    ⟨2, 2, ⟨5, UINT32_MAX⟩, ⟨1, 1⟩, ⟨1024, 1024⟩⟩ 1920 1080).2.1 rfl (by decide)

/-! ## Theorems about queue-family scanning, the support query, and selection -/

lemma findQueueFamiliesLoop_of_complete (l : List QueueFamilyDesc) (i : Nat)
    (acc : QueueFamilyIndices) (h : acc.isComplete = true) :
    findQueueFamiliesLoop l i acc = acc := by
  cases l <;> simp [findQueueFamiliesLoop, h]

/-- Claim C7: the queue-family scan processes families in index order and
stops once both indices are resolved; the result of the short-circuiting loop
equals scanning the list up to the stopping point (a prefix of length k that
either resolves both indices or is the whole list); and a single family
advertising both capabilities, reached while the indices are still
incomplete, stores the same index in both slots. -/
theorem findQueueFamilies_scan_policy :
    (∀ (qfs : List QueueFamilyDesc) (i : Nat) (acc : QueueFamilyIndices),
      ∃ k, k ≤ qfs.length ∧
        findQueueFamiliesLoop qfs i acc = scanQueueFamiliesAll (qfs.take k) i acc ∧
        ((scanQueueFamiliesAll (qfs.take k) i acc).isComplete = true ∨ k = qfs.length))
    ∧ (∀ (qf : QueueFamilyDesc) (rest : List QueueFamilyDesc) (i : Nat)
        (acc : QueueFamilyIndices), acc.isComplete = false →
        qf.graphicsBit = true → qf.surfaceSupport = true →
        findQueueFamiliesLoop (qf :: rest) i acc = ⟨some i, some i⟩) := by
  constructor
  · intro qfs
    induction qfs with
    | nil =>
      intro i acc
      exact ⟨0, Nat.le_refl 0, rfl, Or.inr rfl⟩
    | cons qf rest ih =>
      intro i acc
      by_cases hc : acc.isComplete = true
      · refine ⟨0, Nat.zero_le _, ?_, Or.inl ?_⟩
        · simp [findQueueFamiliesLoop, hc, scanQueueFamiliesAll]
        · simpa [scanQueueFamiliesAll] using hc
      · obtain ⟨k, hk, heq, hd⟩ := ih (i + 1) (updateQueueFamilySlots qf i acc)
        refine ⟨k + 1, Nat.succ_le_succ hk, ?_, ?_⟩
        · rw [List.take_succ_cons]
          simpa [findQueueFamiliesLoop, hc, scanQueueFamiliesAll] using heq
        · rw [List.take_succ_cons]
          cases hd with
          | inl h => exact Or.inl (by simpa [scanQueueFamiliesAll] using h)
          | inr h => exact Or.inr (by simp [h])
  · intro qf rest i acc hinc hg hp
    have hupd : updateQueueFamilySlots qf i acc = ⟨some i, some i⟩ := by
      simp [updateQueueFamilySlots, hg, hp]
    calc findQueueFamiliesLoop (qf :: rest) i acc
        = findQueueFamiliesLoop rest (i + 1) (updateQueueFamilySlots qf i acc) := by
          simp [findQueueFamiliesLoop, hinc]
      _ = ⟨some i, some i⟩ := by
          rw [hupd]
          exact findQueueFamiliesLoop_of_complete rest (i + 1) ⟨some i, some i⟩ rfl

/-- Witness for C7: scanning a list whose first family advertises both
capabilities, starting unresolved, stores index 0 in both slots and ignores
the rest of the list. -/
theorem findQueueFamilies_scan_policy_witness :
    findQueueFamiliesLoop [⟨true, true⟩, ⟨true, false⟩] 0 ⟨none, none⟩ =
      ⟨some 0, some 0⟩ :=
  findQueueFamilies_scan_policy.2 ⟨true, true⟩ [⟨true, false⟩] 0 ⟨none, none⟩
    rfl rfl rfl

/-- Claim C8: in querySwapChainSupport the present-mode fetch is passed the
format-count variable: the returned present-mode vector is sized by the
present-mode count, its first min(formatCount, presentModeCount) entries are
the genuinely fetched ones, and any entry at an index at or beyond the format
count is the value-initialized 0 rather than fetched data. -/
lemma querySwapChainSupport_presentModes_eq (drv : SurfaceQueryData)
    (hpc : drv.presentModes.length ≠ 0) :
    (querySwapChainSupport drv).presentModes =
      drv.presentModes.take drv.formats.length ++
        (List.replicate drv.presentModes.length 0).drop
          (min drv.formats.length drv.presentModes.length) := by
  simp only [querySwapChainSupport, vkFetchArray]
  rw [if_pos hpc]

theorem querySwapChainSupport_count_coupling (drv : SurfaceQueryData) :
    ((querySwapChainSupport drv).presentModes.length = drv.presentModes.length)
    ∧ (∀ i, i < drv.formats.length → i < drv.presentModes.length →
        (querySwapChainSupport drv).presentModes[i]? = drv.presentModes[i]?)
    ∧ (∀ i, drv.formats.length ≤ i → i < drv.presentModes.length →
        (querySwapChainSupport drv).presentModes[i]? = some 0) := by
  refine ⟨?_, ?_, ?_⟩
  · by_cases hpc : drv.presentModes.length = 0
    · have hnil : drv.presentModes = [] := List.length_eq_zero.mp hpc
      simp [querySwapChainSupport, hnil]
    · rw [querySwapChainSupport_presentModes_eq drv hpc]
      simp only [List.length_append, List.length_take, List.length_drop,
        List.length_replicate]
      omega
  · intro i hif hip
    have hpc : drv.presentModes.length ≠ 0 := by omega
    rw [querySwapChainSupport_presentModes_eq drv hpc]
    rw [List.getElem?_append]
    rw [if_pos (by simp only [List.length_take]; omega)]
    rw [List.getElem?_take]
    rw [if_pos hif]
  · intro i hfi hip
    have hpc : drv.presentModes.length ≠ 0 := by omega
    rw [querySwapChainSupport_presentModes_eq drv hpc]
    rw [List.getElem?_append_right (by simp only [List.length_take]; omega)]
    rw [List.getElem?_drop]
    rw [List.getElem?_replicate]
    rw [if_pos (by simp only [List.length_take]; omega)]

/-- Witness for C8: with one surface format and three present modes [2, 1, 3],
the query returns a present-mode vector of length 3 whose first entry is the
genuine 2 but whose third entry is the stale 0. -/
theorem querySwapChainSupport_count_coupling_witness :
    (querySwapChainSupport
      ⟨⟨2, 3, ⟨0, 0⟩, ⟨0, 0⟩, ⟨0, 0⟩⟩, [⟨0, 0⟩], [2, 1, 3]⟩).presentModes[0]? = some 2
    ∧ (querySwapChainSupport
      ⟨⟨2, 3, ⟨0, 0⟩, ⟨0, 0⟩, ⟨0, 0⟩⟩, [⟨0, 0⟩], [2, 1, 3]⟩).presentModes[2]? = some 0 := by
  constructor
  · have h := (querySwapChainSupport_count_coupling
      ⟨⟨2, 3, ⟨0, 0⟩, ⟨0, 0⟩, ⟨0, 0⟩⟩, [⟨0, 0⟩], [2, 1, 3]⟩).2.1 0
      (by decide) (by decide)
    simpa using h
  · exact (querySwapChainSupport_count_coupling
      ⟨⟨2, 3, ⟨0, 0⟩, ⟨0, 0⟩, ⟨0, 0⟩⟩, [⟨0, 0⟩], [2, 1, 3]⟩).2.2 2
      (by decide) (by decide)

lemma pickLoop_of_none_suitable (devs : List PhysicalDevice)
    (h : ∀ d ∈ devs, isPhysDeviceSuitable d = false) :
    pickLoop devs = .error .noSuitableDevice := by
  induction devs with
  | nil => rfl
  | cons dev rest ih =>
    have hdev : isPhysDeviceSuitable dev = false := h dev (List.mem_cons_self dev rest)
    simp only [pickLoop, hdev, Bool.false_eq_true, if_false]
    exact ih fun d hd => h d (List.mem_cons_of_mem dev hd)

lemma pickLoop_first_suitable (devs : List PhysicalDevice) :
    ∀ (i : Nat) (hi : i < devs.length),
      isPhysDeviceSuitable devs[i] = true →
      (∀ (j : Nat) (hj : j < devs.length), j < i →
        isPhysDeviceSuitable devs[j] = false) →
      pickLoop devs = .ok devs[i] := by
  induction devs with
  | nil => intro i hi; exact absurd hi (Nat.not_lt_zero i)
  | cons dev rest ih =>
    intro i hi hs hb
    match i with
    | 0 =>
      simp only [List.getElem_cons_zero] at hs ⊢
      simp [pickLoop, hs]
    | k + 1 =>
      have hdev : isPhysDeviceSuitable dev = false :=
        hb 0 (Nat.succ_pos _) (Nat.succ_pos k)
      simp only [pickLoop, hdev, Bool.false_eq_true, if_false,
        List.getElem_cons_succ]
      exact ih k (Nat.lt_of_succ_lt_succ hi)
        (by simpa using hs)
        (fun j hj hjk => by
          have := hb (j + 1) (Nat.succ_lt_succ hj) (Nat.succ_lt_succ hjk)
          simpa using this)

/-- Claim C1: pickPhysicalDevice fails with noGPU on an empty enumeration,
returns the first device (in enumeration order) whose queue-family resolution
is complete, whose required extensions are all supported and whose swap-chain
support is adequate, and fails with noSuitableDevice when no device passes;
suitability is exactly the conjunction of those three checks, adequacy being
non-emptiness of both the format and present-mode sets. -/
theorem pickPhysicalDevice_first_fit :
    (pickPhysicalDevice [] = .error .noGPU)
    ∧ (∀ devs : List PhysicalDevice, devs ≠ [] →
        (∀ d ∈ devs, isPhysDeviceSuitable d = false) →
        pickPhysicalDevice devs = .error .noSuitableDevice)
    ∧ (∀ (devs : List PhysicalDevice) (i : Nat) (hi : i < devs.length),
        isPhysDeviceSuitable devs[i] = true →
        (∀ (j : Nat) (hj : j < devs.length), j < i →
          isPhysDeviceSuitable devs[j] = false) →
        pickPhysicalDevice devs = .ok devs[i])
    ∧ (∀ dev : PhysicalDevice, isPhysDeviceSuitable dev = true ↔
        ((findQueueFamilies dev).isComplete = true
          ∧ checkPhysDeviceExtensionSupport dev = true
          ∧ (querySwapChainSupport dev.surface).formats ≠ []
          ∧ (querySwapChainSupport dev.surface).presentModes ≠ [])) := by
  refine ⟨rfl, ?_, ?_, ?_⟩
  · intro devs hne hall
    have hemp : devs.isEmpty = false := by
      cases devs with
      | nil => exact absurd rfl hne
      | cons d rest => rfl
    simp only [pickPhysicalDevice, hemp, Bool.false_eq_true, if_false]
    exact pickLoop_of_none_suitable devs hall
  · intro devs i hi hs hb
    have hemp : devs.isEmpty = false := by
      cases devs with
      | nil => exact absurd hi (Nat.not_lt_zero i)
      | cons d rest => rfl
    simp only [pickPhysicalDevice, hemp, Bool.false_eq_true, if_false]
    exact pickLoop_first_suitable devs i hi hs hb
  · intro dev
    simp only [isPhysDeviceSuitable, SwapChainSupportDetails.isAdequate,
      Bool.and_eq_true, Bool.not_eq_true', List.isEmpty_eq_false, and_assoc]

/-- Witness for C1: with a non-qualifying device first, the first of two
qualifying devices is returned; a list holding only the non-qualifying device
yields noSuitableDevice. -/
theorem pickPhysicalDevice_first_fit_witness :
    pickPhysicalDevice [devNoGraphics, devQualifiedA, devQualifiedB] =
      .ok devQualifiedA
    ∧ pickPhysicalDevice [devNoGraphics] = .error .noSuitableDevice := by
  constructor
  · have h := pickPhysicalDevice_first_fit.2.2.1
      [devNoGraphics, devQualifiedA, devQualifiedB] 1 (by decide)
      (by decide)
      (fun j hj hlt => by
        have hj0 : j = 0 := by omega
        subst hj0
        exact (by decide : isPhysDeviceSuitable devNoGraphics = false))
    simpa using h
  · exact pickPhysicalDevice_first_fit.2.1 [devNoGraphics]
      (by decide)
      (fun d hd => by
        have hd0 : d = devNoGraphics := by simpa using hd
        subst hd0
        decide)

/-- Counterexample for C3: a non-success status from vkAcquireNextImageKHR or
vkQueuePresentKHR does not terminate the frame with an error — drawFrame
completes normally with both calls failing with VK_ERROR_DEVICE_LOST, so the
claim that all three calls surface their failures is false on the code. -/
theorem drawFrame_ignores_acquire_present_failures :
    drawFrameResult VK_ERROR_DEVICE_LOST VK_SUCCESS VK_ERROR_DEVICE_LOST = .ok ()
    ∧ VK_ERROR_DEVICE_LOST ≠ VK_SUCCESS := by
  constructor
  · rfl
  · decide

/-- Claim C3 as amended: only the vkQueueSubmit status is checked — a
non-success submit status terminates the frame with an error carrying that
status, a success submit status completes the frame, and the outcome is
entirely independent of the acquire and present statuses (no retry or
recovery). -/
theorem drawFrameResult_only_submit_checked (acquireRes submitRes presentRes : Int) :
    (submitRes ≠ VK_SUCCESS →
      drawFrameResult acquireRes submitRes presentRes =
        .error (.submitFailed submitRes))
    ∧ (submitRes = VK_SUCCESS →
      drawFrameResult acquireRes submitRes presentRes = .ok ())
    ∧ (∀ acquireRes2 presentRes2 : Int,
      drawFrameResult acquireRes submitRes presentRes =
        drawFrameResult acquireRes2 submitRes presentRes2) := by
  refine ⟨?_, ?_, ?_⟩
  · intro h
    simp [drawFrameResult, h]
  · intro h
    simp [drawFrameResult, h]
  · intro a2 p2
    rfl

/-- Witness for the amended C3: a failing submit status (-4) surfaces as an
error carrying that status. -/
theorem drawFrameResult_only_submit_checked_witness :
    drawFrameResult 0 (-4) 0 = .error (.submitFailed (-4)) :=
  (drawFrameResult_only_submit_checked 0 (-4) 0).1 (by decide)

lemma frameInv_init : FrameInv initFrameState [] := by
  refine ⟨fun _ => rfl, ?_, ?_, ?_, ?_, ?_⟩
  · intro m hm
    exact Option.noConfusion hm
  · intro hph
    exact FramePhase.noConfusion hph
  · intro n _ hfr
    have h0 : (0 : Nat) = n + 1 := hfr
    omega
  · intro n hph _
    rcases hph with h | h <;> exact FramePhase.noConfusion h
  · intro hph
    rcases hph with h | h | h <;> exact FramePhase.noConfusion h

lemma frameReach_inv {tr : List FrameEv} {s : FrameLoopState}
    (h : FrameReach tr s) : FrameInv s tr := by
  induction h with
  | init => exact frameInv_init
  | step hr hstep ih =>
    obtain ⟨i1, i2, i3, i4, i5, i6⟩ := ih
    cases hstep with
    | waitFence n p =>
      have hp : p = none := i1 rfl
      subst hp
      refine ⟨fun _ => rfl, ?_, ?_, ?_, ?_, fun _ => ⟨rfl, rfl⟩⟩
      · intro m hm
        exact Option.noConfusion hm
      · intro hph
        exact FramePhase.noConfusion hph
      · intro k hph _
        exact FramePhase.noConfusion hph
      · intro k _ hfr
        subst hfr
        rcases i4 k rfl rfl with hsome | ⟨_, hmem⟩
        · exact Option.noConfusion hsome
        · exact ⟨List.mem_append_left _ hmem, List.mem_append_right _ (by simp)⟩
    | acquire n b p =>
      obtain ⟨hp, hb⟩ := i6 (Or.inl rfl)
      subst hp
      subst hb
      refine ⟨fun _ => rfl, ?_, ?_, ?_, ?_, fun _ => ⟨rfl, rfl⟩⟩
      · intro m hm
        exact Option.noConfusion hm
      · intro hph
        exact FramePhase.noConfusion hph
      · intro k hph _
        exact FramePhase.noConfusion hph
      · intro k _ hfr
        obtain ⟨hg, ho⟩ := i5 k (Or.inl rfl) hfr
        exact ⟨List.mem_append_left _ hg, List.mem_append_left _ ho⟩
    | record n b p =>
      obtain ⟨hp, hb⟩ := i6 (Or.inr (Or.inl rfl))
      subst hp
      subst hb
      refine ⟨fun _ => rfl, ?_, ?_, ?_, ?_, fun _ => ⟨rfl, rfl⟩⟩
      · intro m hm
        exact Option.noConfusion hm
      · intro hph
        exact FramePhase.noConfusion hph
      · intro k hph _
        exact FramePhase.noConfusion hph
      · intro k hph _
        rcases hph with h | h <;> exact FramePhase.noConfusion h
    | submit n b p =>
      obtain ⟨hp, hb⟩ := i6 (Or.inr (Or.inr rfl))
      subst hb
      refine ⟨?_, ?_, fun _ => Or.inl rfl, ?_, ?_, ?_⟩
      · intro hb2
        exact Bool.noConfusion hb2
      · intro m hm
        injection hm with hnm
        exact Or.inl ⟨rfl, hnm⟩
      · intro k hph _
        exact FramePhase.noConfusion hph
      · intro k hph _
        rcases hph with h | h <;> exact FramePhase.noConfusion h
      · intro hph
        rcases hph with h | h | h <;> exact FramePhase.noConfusion h
    | present n b p =>
      refine ⟨i1, ?_, ?_, ?_, ?_, ?_⟩
      · intro m hm
        rcases i2 m hm with ⟨_, hfr⟩ | ⟨hph, _⟩
        · have hfr2 : n = m := hfr
          exact Or.inr ⟨rfl, show n + 1 = m + 1 from by omega⟩
        · exact FramePhase.noConfusion hph
      · intro hph
        exact FramePhase.noConfusion hph
      · intro k _ hfr
        have hfr2 : n + 1 = k + 1 := hfr
        have hnk : n = k := by omega
        subst hnk
        rcases i3 rfl with hsome | ⟨hb2, hmem⟩
        · exact Or.inl hsome
        · exact Or.inr ⟨hb2, List.mem_append_left _ hmem⟩
      · intro k hph _
        rcases hph with h | h <;> exact FramePhase.noConfusion h
      · intro hph
        rcases hph with h | h | h <;> exact FramePhase.noConfusion h
    | gpuFinish n m ph b =>
      have hd := i2 m rfl
      refine ⟨fun _ => rfl, ?_, ?_, ?_, ?_, ?_⟩
      · intro k hk
        exact Option.noConfusion hk
      · intro hph
        rcases hd with ⟨_, hnm⟩ | ⟨hw, _⟩
        · have hnm2 : n = m := hnm
          subst hnm2
          exact Or.inr ⟨rfl, by simp⟩
        · rw [hph] at hw
          exact FramePhase.noConfusion hw
      · intro k hph hfr
        rcases hd with ⟨hpr, _⟩ | ⟨_, hnm⟩
        · rw [hph] at hpr
          exact FramePhase.noConfusion hpr
        · have h1 : n = m + 1 := hnm
          have h2 : n = k + 1 := hfr
          have hmk : m = k := by omega
          subst hmk
          exact Or.inr ⟨rfl, by simp⟩
      · intro k hph hfr
        rcases hph with h | h
        · exact absurd (i6 (Or.inl h)).1 (by simp)
        · exact absurd (i6 (Or.inr (Or.inl h))).1 (by simp)
      · intro hph
        rcases hph with h | h | h
        · exact absurd (i6 (Or.inl h)).1 (by simp)
        · exact absurd (i6 (Or.inr (Or.inl h))).1 (by simp)
        · exact absurd (i6 (Or.inr (Or.inr h))).1 (by simp)

lemma precedes_snoc {a b e : FrameEv} {tr : List FrameEv}
    (h : precedes a b tr) (he : b = e → a ∈ tr) :
    precedes a b (tr ++ [e]) := by
  intro k hb
  by_cases hk : k ≤ tr.length
  · rw [List.take_append_of_le_length hk] at hb ⊢
    exact h k hb
  · have hlen : (tr ++ [e]).length ≤ k := by
      simp only [List.length_append, List.length_cons, List.length_nil]
      omega
    rw [List.take_of_length_le hlen] at hb ⊢
    rcases List.mem_append.mp hb with hmem | hmem
    · have hatr : a ∈ tr := by
        have h0 := h tr.length
        rw [List.take_length] at h0
        exact h0 hmem
      exact List.mem_append_left _ hatr
    · have hbe : b = e := by simpa using hmem
      exact List.mem_append_left _ (he hbe)

/-- Claim C2: in every reachable trace of the frame loop, the record event of
frame N+1 never occurs before the GPU completion signal for the frame N
submission, nor before the host wait on the in-flight fence for iteration
N+1 has returned: each drawFrame iteration blocks on the fence (and resets
it) before re-recording the single command buffer, so host-side re-recording
never races GPU consumption of the previous recording. -/
theorem drawFrame_record_gated_on_prev_fence
    (tr : List FrameEv) (s : FrameLoopState) (h : FrameReach tr s) :
    ∀ n : Nat,
      precedes (FrameEv.gpuSignal n) (FrameEv.record (n + 1)) tr
      ∧ precedes (FrameEv.fenceObserved (n + 1)) (FrameEv.record (n + 1)) tr := by
  induction h with
  | init =>
    intro n
    constructor <;> intro k hb <;> simp at hb
  | step hr hstep ih =>
    intro n
    obtain ⟨p1, p2⟩ := ih n
    have hinv := frameReach_inv hr
    obtain ⟨_, _, _, _, i5, _⟩ := hinv
    cases hstep with
    | waitFence fr p =>
      exact ⟨precedes_snoc p1 fun heq => FrameEv.noConfusion heq,
        precedes_snoc p2 fun heq => FrameEv.noConfusion heq⟩
    | acquire fr b p =>
      exact ⟨precedes_snoc p1 fun heq => FrameEv.noConfusion heq,
        precedes_snoc p2 fun heq => FrameEv.noConfusion heq⟩
    | record fr b p =>
      refine ⟨precedes_snoc p1 ?_, precedes_snoc p2 ?_⟩
      · intro heq
        injection heq with hfr
        exact (i5 n (Or.inr rfl) hfr.symm).1
      · intro heq
        injection heq with hfr
        exact (i5 n (Or.inr rfl) hfr.symm).2
    | submit fr b p =>
      exact ⟨precedes_snoc p1 fun heq => FrameEv.noConfusion heq,
        precedes_snoc p2 fun heq => FrameEv.noConfusion heq⟩
    | present fr b p =>
      exact ⟨precedes_snoc p1 fun heq => FrameEv.noConfusion heq,
        precedes_snoc p2 fun heq => FrameEv.noConfusion heq⟩
    | gpuFinish fr m ph b =>
      exact ⟨precedes_snoc p1 fun heq => FrameEv.noConfusion heq,
        precedes_snoc p2 fun heq => FrameEv.noConfusion heq⟩

/-- Witness for C2: along a concrete two-frame execution, at the cut just
after the record event of frame 1, both the GPU completion signal for frame 0
and the fence observation of the host for iteration 1 have already occurred. -/
theorem drawFrame_record_gated_on_prev_fence_witness :
    FrameEv.gpuSignal 0 ∈
      ([FrameEv.fenceObserved 0, FrameEv.acquire 0, FrameEv.record 0,
        FrameEv.submit 0, FrameEv.present 0, FrameEv.gpuSignal 0,
        FrameEv.fenceObserved 1, FrameEv.acquire 1, FrameEv.record 1].take 9)
    ∧ FrameEv.fenceObserved 1 ∈
      ([FrameEv.fenceObserved 0, FrameEv.acquire 0, FrameEv.record 0,
        FrameEv.submit 0, FrameEv.present 0, FrameEv.gpuSignal 0,
        FrameEv.fenceObserved 1, FrameEv.acquire 1, FrameEv.record 1].take 9) := by
  have r1 := FrameReach.step FrameReach.init (FrameStep.waitFence 0 none)
  have r2 := FrameReach.step r1 (FrameStep.acquire 0 false none)
  have r3 := FrameReach.step r2 (FrameStep.record 0 false none)
  have r4 := FrameReach.step r3 (FrameStep.submit 0 false none)
  have r5 := FrameReach.step r4 (FrameStep.present 0 false (some 0))
  have r6 := FrameReach.step r5 (FrameStep.gpuFinish 1 0 FramePhase.waiting false)
  have r7 := FrameReach.step r6 (FrameStep.waitFence 1 none)
  have r8 := FrameReach.step r7 (FrameStep.acquire 1 false none)
  have r9 := FrameReach.step r8 (FrameStep.record 1 false none)
  have h := drawFrame_record_gated_on_prev_fence _ _ r9 0
  exact ⟨h.1 9 (by decide), h.2 9 (by decide)⟩

/-- Claim C9: createSyncPrimitives yields the in-flight fence already in the
signaled state and both semaphores unsignaled, so the wait step of the very
first frame-loop iteration is enabled in the initial state (the first
vkWaitForFences returns immediately instead of blocking indefinitely). -/
theorem createSyncPrimitives_fence_signaled :
    createSyncPrimitives.inFlightFence = true
    ∧ createSyncPrimitives.imageAvailableSemaphore = false
    ∧ createSyncPrimitives.renderFinishedSemaphore = false
    ∧ ∃ s2, FrameStep initFrameState (FrameEv.fenceObserved 0) s2 := by
  refine ⟨by decide, rfl, rfl,
    ⟨⟨0, FramePhase.acquiring, false, none⟩, ?_⟩⟩
  exact FrameStep.waitFence 0 none
